import Mathlib

/-!
# Offline-first product synchronisation (prueba-cyl)

Shallow embedding of the two persistence modules of the repository and of the
sync handlers of its screen:

* `src/services/productService.js`: the AsyncStorage backed store used by
  `ProductosScreen.js` (namespace `ProductService`);
* `src/screens/ProductosScreen.js`: `loadProductos`, `handleSync` and the effect
  run when the connectivity changes (namespace `ProductosScreen`);
* `src/database/dbService.js`: the SQLite backed store (namespace `DbService`).

Asynchronous code is modelled sequentially with explicit state passing: every
operation takes the local store and the behaviour of the server and returns the
new local store together with the list of HTTP requests it sent.  Storage
calls are assumed to succeed.  The conversions between strings and numbers of
the JavaScript engine are a parameter (`Engine`): the operations and the
theorems are stated for every engine.
-/

set_option autoImplicit false

namespace PruebaCyl

/-! ## JavaScript values -/

/-- Value of an `id` key: a number (server assigned) or a string (the
temporary `Date.now().toString()`).  A number id is the integer value of a
JavaScript number. -/
inductive JsId where
  | num (n : Int)
  | str (s : String)
  deriving DecidableEq, Repr

/-- The conversions between strings and numbers that the JavaScript engine
provides and that are no part of the repository. -/
structure Engine where
  /-- Conversion `Number(s)` of a string: `some n` when the result is the
  integer `n`, `none` when it is `NaN`, infinite or no integer. -/
  number : String → Option Int
  /-- Method `n.toString()` for a number at or beyond `10^21` in absolute
  value, which the engine writes in exponent form. -/
  exponential : Int → String

/-- Truthiness of an optional boolean key (`p.needsSync`, `p.pendingDelete`):
an absent key is `undefined`, hence falsy. -/
def truthy : Option Bool → Bool
  | some b => b
  | none => false

/-- Truthiness of an id: `0` and the empty string are falsy. -/
def JsId.truthy : JsId → Bool
  | .num n => n != 0
  | .str s => s != ""

/-- Truthiness of `data.id`. -/
def idTruthy : Option JsId → Bool
  | some i => i.truthy
  | none => false

/-- The `length` of a string: its number of UTF-16 code units, two for a
character beyond the basic plane. -/
def jsLength (s : String) : Nat :=
  s.data.foldl (fun n c => n + (if c.toNat < 65536 then 1 else 2)) 0

/-- Method `id.toString()`: a string is itself; a number below `10^21` in
absolute value is written in decimal digits, a larger one in exponent form. -/
def JsId.toString (js : Engine) : JsId → String
  | .num n => if n.natAbs < 10 ^ 21 then ToString.toString n else js.exponential n
  | .str s => s

/-- The temporary id `Date.now().toString()`, for `Date.now() = now`. -/
def temporaryId (js : Engine) (now : Nat) : JsId :=
  .str ((JsId.num now).toString js)

/-- Loose equality `a == b` of two ids: same type compares the values, a
string against a number compares `Number(string)` with the number. -/
def looseEq (js : Engine) : JsId → JsId → Bool
  | .num a, .num b => a == b
  | .str a, .str b => a == b
  | .num a, .str b => js.number b == some a
  | .str a, .num b => js.number a == some b

/-- Comparison `p.id == id` where the key may be absent (`undefined == id` is false for
a string or a number). -/
def looseEqKey (js : Engine) : Option JsId → JsId → Bool
  | some a, b => looseEq js a b
  | none, _ => false

/-! ## productService.js: data model -/

namespace ProductService

/-- A product object of the local store: the keys the service reads or
writes.  `none` is an absent key. -/
structure Producto where
  id : Option JsId := none
  nombre : Option String := none
  camara : Option String := none
  needsSync : Option Bool := none
  pendingDelete : Option Bool := none
  deriving DecidableEq, Repr

/-- A parsed JSON object of a response body: the keys of a product plus the
`insertId` key some servers answer with. -/
structure Data where
  id : Option JsId := none
  insertId : Option JsId := none
  nombre : Option String := none
  camara : Option String := none
  needsSync : Option Bool := none
  pendingDelete : Option Bool := none
  deriving DecidableEq, Repr

/-- The product keys of a response object (`{ ...data }`). -/
def Data.toProducto (d : Data) : Producto :=
  { id := d.id, nombre := d.nombre, camara := d.camara,
    needsSync := d.needsSync, pendingDelete := d.pendingDelete }

/-- A present key wins over an earlier one. -/
def later {α : Type} (earlier latest : Option α) : Option α :=
  match latest with
  | some v => some v
  | none => earlier

/-- Object spread `{ ...base, ...src }`: every key present in `src` replaces
the key written before it. -/
def spread (base src : Producto) : Producto :=
  { id := later base.id src.id,
    nombre := later base.nombre src.nombre,
    camara := later base.camara src.camara,
    needsSync := later base.needsSync src.needsSync,
    pendingDelete := later base.pendingDelete src.pendingDelete }

/-- Result of `response.json()`. -/
inductive Body where
  /-- The promise rejects, or the value is `null`. -/
  | invalid
  /-- A JSON array. -/
  | array (items : List Producto)
  /-- A JSON value that is no array and not `null`: an object, of which `o`
  holds the keys read by the code and `productos` the `productos` key when it is
  an array (`none` when the key is absent or falsy), or a number, a boolean or
  a string, which have none of the keys.  A `productos` key holding another
  truthy value is left out. -/
  | object (o : Data) (productos : Option (List Producto))
  deriving DecidableEq, Repr

/-- The body read as an object (`data.id`, `data.insertId`): an array has
none of the keys. -/
def Body.asData : Body → Option Data
  | .invalid => none
  | .array _ => some {}
  | .object o _ => some o

/-- What `fetch` does. -/
inductive Response where
  /-- The promise rejects (network error). -/
  | rejects
  /-- A response with its `ok` flag and its body. -/
  | resp (ok : Bool) (body : Body)
  deriving DecidableEq, Repr

/-- The test `response.ok` applied to what `fetch` did: a rejected promise
never reaches the test. -/
def Response.isOk : Response → Bool
  | .resp ok _ => ok
  | .rejects => false

/-- An HTTP request of the service. -/
inductive Request where
  /-- Request `GET /productos`. -/
  | getAll
  /-- Request `POST /productos` with body `{ nombre, camara }`. -/
  | post (nombre camara : Option String)
  /-- Request `PATCH /productos/<id>/camara` with body `{ camara }`. -/
  | patch (id : Option JsId) (camara : Option String)
  /-- Request `DELETE /productos/<id>`. -/
  | delete (id : Option JsId)
  deriving DecidableEq, Repr

/-- Behaviour of the server during one operation: the answer to the `n`-th
request (counted from 0) of the operation. -/
abbrev Remote := Nat → Request → Response

/-- State after an operation: its return value, the local store and the
requests sent, oldest first. -/
structure Outcome (α : Type) where
  value : α
  store : List Producto
  calls : List Request

/-- Method `productos.findIndex(pred)`; `none` stands for `-1`. -/
def findIndex (pred : Producto → Bool) : List Producto → Option Nat
  | [] => none
  | p :: ps => if pred p then some 0 else (findIndex pred ps).map (· + 1)

/-- Assignment to the object or slot at index `k` (no effect when `k` is
out of range). -/
def modifyAt (f : Producto → Producto) : Nat → List Producto → List Producto
  | _, [] => []
  | 0, p :: ps => f p :: ps
  | k + 1, p :: ps => p :: modifyAt f k ps

/-! ## productService.js: operations -/

/-- Function `getProductos(isConnected)`. -/
def getProductos (isConnected : Bool) (remote : Remote) (store : List Producto) :
    Outcome (List Producto) :=
  if isConnected then
    match remote 0 .getAll with
    | .resp true (.array items) => ⟨items, items, [.getAll]⟩
    | .resp true (.object _ productos) =>
        ⟨productos.getD [], productos.getD [], [.getAll]⟩
    | _ => ⟨store, store, [.getAll]⟩
  else
    ⟨store, store, []⟩

/-- Function `createProducto(nombre, camara, isConnected)`; `now` is the value of
`Date.now()`. -/
def createProducto (js : Engine) (now : Nat) (nombre camara : String) (isConnected : Bool)
    (remote : Remote) (store : List Producto) : Outcome Producto :=
  let nuevoProducto : Producto :=
    { id := some (temporaryId js now), nombre := some nombre,
      camara := some camara, needsSync := some (!isConnected) }
  let productos := store ++ [nuevoProducto]
  if isConnected then
    let req := Request.post (some nombre) (some camara)
    match remote 0 req with
    | .resp true body =>
        match body.asData with
        | some data =>
            let productoRemoto : Producto :=
              if idTruthy data.id then data.toProducto
              else { id := data.insertId, nombre := some nombre, camara := some camara }
            let productosActualizados := productos.map (fun p =>
              if p.id = nuevoProducto.id then
                { productoRemoto with needsSync := some false }
              else p)
            ⟨productoRemoto, productosActualizados, [req]⟩
        | none => ⟨nuevoProducto, productos, [req]⟩
    | _ => ⟨nuevoProducto, productos, [req]⟩
  else
    ⟨nuevoProducto, productos, []⟩

/-- Function `updateCamara(id, nuevaCamara, isConnected)`; `Except.error` is the
thrown `Error`. -/
def updateCamara (js : Engine) (id : JsId) (nuevaCamara : String) (isConnected : Bool)
    (remote : Remote) (store : List Producto) :
    Except String (Outcome (Option Producto)) :=
  match findIndex (fun p => looseEqKey js p.id id) store with
  | none => .error "Producto no encontrado"
  | some productoIndex =>
      let productos := modifyAt
        (fun p => { p with camara := some nuevaCamara, needsSync := some (!isConnected) })
        productoIndex store
      if isConnected then
        let req := Request.patch (some id) (some nuevaCamara)
        match remote 0 req with
        | .resp true _ =>
            let productos2 := modifyAt (fun p => { p with needsSync := some false })
              productoIndex productos
            .ok ⟨productos2[productoIndex]?, productos2, [req]⟩
        | _ => .ok ⟨productos[productoIndex]?, productos, [req]⟩
      else
        .ok ⟨productos[productoIndex]?, productos, []⟩

/-- Function `deleteProducto(id, isConnected)`; `Except.error` is the thrown `Error`. -/
def deleteProducto (js : Engine) (id : JsId) (isConnected : Bool) (remote : Remote)
    (store : List Producto) : Except String (Outcome Unit) :=
  match findIndex (fun p => looseEqKey js p.id id) store with
  | none => .error "Producto no encontrado"
  | some productoIndex =>
      let marcados := modifyAt
        (fun p => { p with needsSync := some true, pendingDelete := some true })
        productoIndex store
      if isConnected then
        let req := Request.delete (some id)
        match remote 0 req with
        | .resp true _ =>
            .ok ⟨(), store.filter (fun p => !looseEqKey js p.id id), [req]⟩
        | _ => .ok ⟨(), marcados, [req]⟩
      else
        .ok ⟨(), marcados, []⟩

/-- A request of `syncData` together with the pending product it was sent
for. -/
structure SyncCall where
  producto : Producto
  request : Request
  deriving DecidableEq, Repr

/-- The `for (const producto of cambiosPendientes)` loop of `syncData`:
`n` counts the requests sent so far, `productos` is the array being
edited and `log` the requests sent so far. -/
def syncLoop (js : Engine) (remote : Remote) :
    List Producto → Nat → List Producto → List SyncCall → List Producto × List SyncCall
  | [], _, productos, log => (productos, log)
  | producto :: rest, n, productos, log =>
      if truthy producto.pendingDelete then
        -- the response is not inspected, a rejection is caught
        syncLoop js remote rest (n + 1) productos
          (log ++ [⟨producto, .delete producto.id⟩])
      else
        match producto.id with
        | none =>
            -- `producto.id.toString()` throws, caught by the inner `catch`
            syncLoop js remote rest n productos log
        | some i =>
            if jsLength (i.toString js) > 10 then
              let req := Request.post producto.nombre producto.camara
              match remote n req with
              | .resp true body =>
                  match body.asData with
                  | some data =>
                      let nuevo : Producto :=
                        { (if idTruthy data.id then data.toProducto
                           else spread { id := data.insertId } producto) with
                          needsSync := some false }
                      let productos2 :=
                        match findIndex (fun p => p.id = producto.id) productos with
                        | some index => modifyAt (fun _ => nuevo) index productos
                        | none => productos
                      syncLoop js remote rest (n + 1) productos2 (log ++ [⟨producto, req⟩])
                  | none => syncLoop js remote rest (n + 1) productos (log ++ [⟨producto, req⟩])
              | _ => syncLoop js remote rest (n + 1) productos (log ++ [⟨producto, req⟩])
            else
              -- the response is not inspected, a rejection is caught
              syncLoop js remote rest (n + 1) productos
                (log ++ [⟨producto, .patch producto.id producto.camara⟩])

/-- The final step of `syncData`: drop the products marked for deletion and
clear the flags of the others. -/
def limpiarFlags (productos : List Producto) : List Producto :=
  (productos.filter (fun p => !truthy p.pendingDelete)).map
    (fun p => { p with needsSync := some false, pendingDelete := some false })

/-- State after `syncData`: the local store and the requests sent. -/
structure SyncOutcome where
  store : List Producto
  calls : List SyncCall
  deriving DecidableEq, Repr

/-- Function `syncData()`. -/
def syncData (js : Engine) (remote : Remote) (store : List Producto) : SyncOutcome :=
  let cambiosPendientes := store.filter (fun p => truthy p.needsSync)
  if cambiosPendientes.length = 0 then
    ⟨store, []⟩
  else
    let r := syncLoop js remote cambiosPendientes 0 store []
    ⟨limpiarFlags r.1, r.2⟩

/-- The request the loop of `syncData` sends for a pending product (`none`:
the product has no id and no request is sent). -/
def syncRequest (js : Engine) (producto : Producto) : Option Request :=
  if truthy producto.pendingDelete then some (.delete producto.id)
  else
    match producto.id with
    | none => none
    | some i =>
        if jsLength (i.toString js) > 10 then some (.post producto.nombre producto.camara)
        else some (.patch producto.id producto.camara)

/-- The entry of the request log for a pending product. -/
def syncCall (js : Engine) (producto : Producto) : Option SyncCall :=
  (syncRequest js producto).map (fun req => ⟨producto, req⟩)

end ProductService

/-! ## ProductosScreen.js: the sync handlers -/

namespace ProductosScreen

open ProductService

/-- The state of the screen component that the sync handlers read or write:
the `syncing` state, the `wasConnected` ref and the `productos` state. -/
structure Pantalla where
  syncing : Bool
  wasConnected : Bool
  productos : List Producto
  deriving DecidableEq, Repr

/-- State after a handler: the screen, the local store, the requests sent by
`syncData` and the requests sent by `getProductos`. -/
structure Efecto where
  pantalla : Pantalla
  store : List Producto
  syncCalls : List SyncCall
  loadCalls : List Request
  deriving DecidableEq, Repr

/-- Function `loadProductos()`. -/
def loadProductos (isConnected : Bool) (remote : Remote) (pantalla : Pantalla)
    (store : List Producto) : Efecto :=
  let g := getProductos isConnected remote store
  ⟨{ pantalla with productos := g.value }, g.store, [], g.calls⟩

/-- Function `handleSync()`: `setSyncing(true)`, then `syncData()` and
`loadProductos()`, and `setSyncing(false)` in the `finally` block.  The
function does not read `syncing`. -/
def handleSync (js : Engine) (isConnected : Bool) (remoteSync remoteLoad : Remote)
    (pantalla : Pantalla) (store : List Producto) : Efecto :=
  let s := syncData js remoteSync store
  let l := loadProductos isConnected remoteLoad { pantalla with syncing := true } s.store
  ⟨{ l.pantalla with syncing := false }, l.store, s.calls, l.loadCalls⟩

/-- The effect run when `isConnected` changes: `handleSync()` after a change
from offline to online, `loadProductos()` otherwise; then the ref is set. -/
def efectoConexion (js : Engine) (isConnected : Bool) (remoteSync remoteLoad : Remote)
    (pantalla : Pantalla) (store : List Producto) : Efecto :=
  let e :=
    if !pantalla.wasConnected && isConnected then
      handleSync js isConnected remoteSync remoteLoad pantalla store
    else
      loadProductos isConnected remoteLoad pantalla store
  { e with pantalla := { e.pantalla with wasConnected := isConnected } }

/-- The `disabled` attribute of the sync button, `!isConnected || syncing`:
the button cannot start `handleSync` while it holds. -/
def botonDeshabilitado (isConnected : Bool) (pantalla : Pantalla) : Bool :=
  !isConnected || pantalla.syncing

end ProductosScreen

/-! ## dbService.js: data model -/

namespace DbService

/-- A row of the `productos` table. -/
structure Row where
  id : Int
  nombre : Option String
  camara : Option String
  synced : Nat
  operation : Option String
  updatedField : Option String
  deriving DecidableEq, Repr

/-- The `productos` table: its rows in rowid order, and the largest rowid
handed out so far (the `sqlite_sequence` entry kept for `AUTOINCREMENT`).
Rowids are taken to stay below the largest rowid of SQLite, `2^63 - 1`, at
which an insertion fails. -/
structure Table where
  rows : List Row
  seq : Int
  deriving DecidableEq, Repr

/-- A product object of a response body; `none` is an absent key. -/
structure Product where
  id : Option Int := none
  nombre : Option String := none
  camara : Option String := none
  deriving DecidableEq, Repr

/-- Result of `response.json()`. -/
inductive Body where
  /-- The promise rejects: the body is no JSON text. -/
  | invalid
  /-- A JSON array of products. -/
  | array (items : List Product)
  /-- A JSON value that cannot be iterated: an object, of which `o` holds the
  product keys, or `null`, a number or a boolean, which have none. -/
  | object (o : Product)
  deriving DecidableEq, Repr

/-- What `fetch` does. -/
inductive Response where
  /-- The promise rejects (network error). -/
  | rejects
  /-- A response with its `ok` flag and its body. -/
  | resp (ok : Bool) (body : Body)
  deriving DecidableEq, Repr

/-- An HTTP request of the module. -/
inductive Request where
  /-- Request `GET /productos`. -/
  | getAll
  /-- Request `POST /productos` with body `{ nombre, camara }`. -/
  | post (nombre camara : Option String)
  /-- Request `PUT /productos/<id>` with body `{ nombre, camara }`. -/
  | put (id : Int) (nombre camara : Option String)
  /-- Request `PATCH /productos/<id>/camara` with body `{ camara }`. -/
  | patch (id : Int) (camara : Option String)
  /-- Request `DELETE /productos/<id>`. -/
  | delete (id : Int)
  deriving DecidableEq, Repr

/-- Behaviour of the server during one operation: the answer to the `n`-th
request (counted from 0) of the operation. -/
abbrev Remote := Nat → Request → Response

/-! ## dbService.js: SQL statements -/

/-- Insertion of a row at its place in rowid order. -/
def insertRow (r : Row) : List Row → List Row
  | [] => [r]
  | x :: xs => if r.id < x.id then r :: x :: xs else x :: insertRow r xs

/-- The rowid `AUTOINCREMENT` gives to the next row: one more than the
largest rowid that ever existed in the table (below the bound `2^63 - 1`). -/
def nextId (t : Table) : Int :=
  (t.rows.foldl (fun m r => max m r.id) t.seq) + 1

/-- Statement `INSERT INTO productos (nombre, camara, synced, operation) VALUES (?, ?, ?, ?)`;
returns the `insertId` as well. -/
def sqlInsert (nombre camara : Option String) (synced : Nat) (operation : Option String)
    (t : Table) : Int × Table :=
  let k := nextId t
  (k, { rows := insertRow ⟨k, nombre, camara, synced, operation, none⟩ t.rows, seq := k })

/-- Statement `INSERT OR REPLACE INTO productos (id, nombre, camara, synced, operation,
updatedField) VALUES (?, ?, ?, 1, NULL, NULL)`: a row with the same id is
deleted first; a `NULL` id takes the next rowid. -/
def sqlInsertOrReplace (t : Table) (product : Product) : Table :=
  match product.id with
  | some k =>
      { rows := insertRow ⟨k, product.nombre, product.camara, 1, none, none⟩
          (t.rows.filter (fun r => r.id ≠ k)),
        seq := max t.seq k }
  | none => (sqlInsert product.nombre product.camara 1 none t).2

/-- Statement `DELETE FROM productos WHERE synced = 1`. -/
def sqlDeleteSynced (t : Table) : Table :=
  { t with rows := t.rows.filter (fun r => r.synced ≠ 1) }

/-- Statement `DELETE FROM productos WHERE id = ?`. -/
def sqlDeleteById (id : Int) (t : Table) : Table :=
  { t with rows := t.rows.filter (fun r => r.id ≠ id) }

/-- Statement `UPDATE productos SET synced = 1 WHERE id = ?`. -/
def sqlMarkSynced (id : Int) (t : Table) : Table :=
  { t with rows := t.rows.map (fun r => if r.id = id then { r with synced := 1 } else r) }

/-- Statement `UPDATE productos SET operation = "DELETE", synced = 0 WHERE id = ?`. -/
def sqlMarkDelete (id : Int) (t : Table) : Table :=
  { t with rows := t.rows.map (fun r =>
      if r.id = id then { r with operation := some "DELETE", synced := 0 } else r) }

/-- Statement `UPDATE productos SET nombre = ?, camara = ?, synced = ?, operation = ?,
updatedField = ? WHERE id = ?`. -/
def sqlUpdate (nombre camara : Option String) (synced : Nat) (operation updatedField : Option String)
    (id : Int) (t : Table) : Table :=
  { t with rows := t.rows.map (fun r =>
      if r.id = id then
        { r with nombre := nombre, camara := camara, synced := synced,
                 operation := operation, updatedField := updatedField }
      else r) }

/-- Statement `UPDATE productos SET id = ?, synced = 1 WHERE id = ?`; `none` when the
statement fails: the new id is `NULL`, or it is the id of another row. -/
def sqlSetId (newId : Option Int) (id : Int) (t : Table) : Option Table :=
  match newId with
  | none => none
  | some k =>
      if k ≠ id ∧ t.rows.any (fun r => r.id = k) ∧ t.rows.any (fun r => r.id = id) then
        none
      else
        let moved := (t.rows.filter (fun r => r.id = id)).map
          (fun r => { r with id := k, synced := 1 })
        let others := t.rows.filter (fun r => r.id ≠ id)
        some { t with rows := moved.foldl (fun acc r => insertRow r acc) others }

/-- The snapshot merge run by `getProductos` and by `syncWithServer`:
delete the synced rows, then insert every product of the server. -/
def mergeSnapshot (t : Table) (serverProducts : List Product) : Table :=
  serverProducts.foldl sqlInsertOrReplace (sqlDeleteSynced t)

/-! ## dbService.js: operations -/

/-- The request `syncWithServer` builds for a pending row (the `switch` on
`item.operation`); `none` is the `default` branch. -/
def requestFor (item : Row) : Option Request :=
  if item.operation = some "UPDATE" then
    if item.updatedField = some "camara" then some (.patch item.id item.camara)
    else some (.put item.id item.nombre item.camara)
  else if item.operation = some "INSERT" then some (.post item.nombre item.camara)
  else if item.operation = some "DELETE" then some (.delete item.id)
  else none

/-- What `syncWithServer` does to the table after an `ok` response for `item`. -/
def acknowledge (item : Row) (t : Table) : Table :=
  if item.operation = some "DELETE" then sqlDeleteById item.id t
  else sqlMarkSynced item.id t

/-- State after the `for (const item of pendingItems)` loop. -/
structure DrainResult where
  /-- Whether the loop ran to its end (`false`: an error was thrown). -/
  completed : Bool
  table : Table
  calls : List Request
  deriving DecidableEq, Repr

/-- The `for (const item of pendingItems)` loop of `syncWithServer`; `log`
holds the requests sent so far. -/
def drain (remote : Remote) : List Row → Table → List Request → DrainResult
  | [], t, log => ⟨true, t, log⟩
  | item :: rest, t, log =>
      match requestFor item with
      | none => drain remote rest t log
      | some req =>
          match remote log.length req with
          | .resp true _ => drain remote rest (acknowledge item t) (log ++ [req])
          | _ => ⟨false, t, log ++ [req]⟩

/-- State after `syncWithServer`: the `success` key of its result, the table
and the requests sent. -/
structure SyncResult where
  success : Bool
  table : Table
  calls : List Request
  deriving DecidableEq, Repr

/-- Function `syncWithServer()`; `isConnected` is the answer of `checkConnection()`. -/
def syncWithServer (isConnected : Bool) (remote : Remote) (t : Table) : SyncResult :=
  if !isConnected then ⟨false, t, []⟩
  else
    let pendingItems := t.rows.filter (fun r => r.synced = 0)
    if pendingItems.length = 0 then ⟨true, t, []⟩
    else
      let d := drain remote pendingItems t []
      if d.completed then
        match remote d.calls.length .getAll with
        | .resp true (.array serverProducts) =>
            ⟨true, mergeSnapshot d.table serverProducts, d.calls ++ [.getAll]⟩
        | .resp true (.object _) =>
            -- the synced rows are deleted, then `for ... of` throws
            ⟨false, sqlDeleteSynced d.table, d.calls ++ [.getAll]⟩
        | _ => ⟨false, d.table, d.calls ++ [.getAll]⟩
      else ⟨false, d.table, d.calls⟩

/-- Return value of `getProductos`: the list of the server or the local rows. -/
inductive Listado where
  | remoto (data : List Product)
  | locales (rows : List Row)
  deriving DecidableEq, Repr

/-- Function `getProductos()`. -/
def getProductos (isConnected : Bool) (remote : Remote) (t : Table) :
    Listado × Table × List Request :=
  if isConnected then
    match remote 0 .getAll with
    | .resp true (.array data) => (.remoto data, mergeSnapshot t data, [.getAll])
    | .resp true (.object _) =>
        (.locales (sqlDeleteSynced t).rows, sqlDeleteSynced t, [.getAll])
    | _ => (.locales t.rows, t, [.getAll])
  else (.locales t.rows, t, [])

/-- Function `createProducto(nombre, camara)`. -/
def createProducto (nombre camara : String) (isConnected : Bool) (remote : Remote)
    (t : Table) : Product × Table × List Request :=
  let ins := sqlInsert (some nombre) (some camara) (if isConnected then 0 else 0)
    (some "INSERT") t
  let insertId := ins.1
  let locales : Product := { id := some insertId, nombre := some nombre, camara := some camara }
  if isConnected then
    let req := Request.post (some nombre) (some camara)
    match remote 0 req with
    | .resp true (.object data) =>
        match sqlSetId data.id insertId ins.2 with
        | some t2 => (data, t2, [req])
        | none => (locales, ins.2, [req])
    | .resp true (.array _) =>
        -- `data.id` is `undefined`
        (locales, ins.2, [req])
    | _ => (locales, ins.2, [req])
  else (locales, ins.2, [])

/-- Function `updateProducto(id, nombre, camara, updatedField = null)`. -/
def updateProducto (id : Int) (nombre camara : Option String) (updatedField : Option String)
    (isConnected : Bool) (remote : Remote) (t : Table) : Product × Table × List Request :=
  let t1 := sqlUpdate nombre camara (if isConnected then 0 else 0) (some "UPDATE")
    updatedField id t
  let result : Product := { id := some id, nombre := nombre, camara := camara }
  if isConnected then
    let req :=
      if updatedField = some "camara" then Request.patch id camara
      else Request.put id nombre camara
    match remote 0 req with
    | .resp true _ => (result, sqlMarkSynced id t1, [req])
    | _ => (result, t1, [req])
  else (result, t1, [])

/-- Function `updateCamara(id, camara)`. -/
def updateCamara (id : Int) (camara : Option String) (isConnected : Bool) (remote : Remote)
    (t : Table) : Product × Table × List Request :=
  updateProducto id none camara (some "camara") isConnected remote t

/-- Function `deleteProducto(id)`. -/
def deleteProducto (id : Int) (isConnected : Bool) (remote : Remote) (t : Table) :
    Bool × Table × List Request :=
  if isConnected then
    match remote 0 (.delete id) with
    | .resp true _ => (true, sqlDeleteById id t, [.delete id])
    | _ => (true, sqlMarkDelete id t, [.delete id])
  else (true, sqlMarkDelete id t, [])

end DbService

/-! ## Example states -/

/-- Value of a string of decimal digits, `none` when the list is empty or has
another character. -/
def digitsValue : List Char → Option Nat
  | [] => none
  | cs => cs.foldl
      (fun acc c => match acc with
        | some n => if c.isDigit then some (10 * n + (c.toNat - 48)) else none
        | none => none)
      (some 0)

/-- An engine to evaluate the examples with.  Its `number` reads a string of
decimal digits that denotes an integer below `2^53` as that integer, as every
engine does, and gives no integer for any other string; its `exponential`
writes all the digits.  No example compares another string with a number nor
holds a number that large, and no theorem stated for every engine depends on
this one. -/
def motorEjemplo : Engine where
  number := fun s =>
    match digitsValue s.data with
    | some n => if n < 2 ^ 53 then some (n : Int) else none
    | none => none
  exponential := fun n => ToString.toString n

namespace ProductService

/-- A server that never answers: every `fetch` rejects. -/
def sinRed : Remote := fun _ _ => .rejects

/-- A product created offline at `Date.now() = 1700000000000`. -/
def panOffline : Producto :=
  { id := some (.str "1700000000000"), nombre := some "pan", camara := some "3",
    needsSync := some true }

/-- A synced product of the server whose camera was edited offline. -/
def lecheEditada : Producto :=
  { id := some (.num 4), nombre := some "leche", camara := some "5", needsSync := some true }

/-- A product of the server deleted offline. -/
def salBorrada : Producto :=
  { id := some (.num 6), nombre := some "sal", camara := some "1", needsSync := some true,
    pendingDelete := some true }

/-- A product of the server without pending change. -/
def lecheSincronizada : Producto :=
  { id := some (.num 4), nombre := some "leche", camara := some "2", needsSync := some false }

/-- A server that answers `GET /productos` with one product. -/
def servidorConLeche : Remote := fun _ _ =>
  .resp true (.array [{ id := some (.num 4), nombre := some "leche", camara := some "2" }])

/-- A server that answers every request with a status that is not ok. -/
def servidorRechaza : Remote := fun _ _ => .resp false .invalid

/-- A server that accepts a create and answers `{ insertId: 7 }`. -/
def servidorInsertId : Remote := fun _ _ =>
  .resp true (.object { insertId := some (.num 7) } none)

/-- A server that accepts every request. -/
def servidorAcepta : Remote := fun _ _ => .resp true (.object {} none)

/-- The product created offline by `createProducto(nombre, camara, false)` at
`Date.now() = now`, once `deleteProducto` has marked it. -/
def creadoYBorrado (js : Engine) (now : Nat) (nombre camara : String) : Producto :=
  { id := some (temporaryId js now), nombre := some nombre, camara := some camara,
    needsSync := some true, pendingDelete := some true }

/-- A product of a server that assigns 24 character ids, with a camera
edited offline. -/
def quesoEditado : Producto :=
  { id := some (.str "507f1f77bcf86cd799439011"), nombre := some "queso",
    camara := some "8", needsSync := some true }

end ProductService

namespace DbService

/-- A row edited offline: a pending camera update of the server product 5. -/
def filaEditada : Row := ⟨5, some "pan", some "9", 0, some "UPDATE", some "camara"⟩

/-- A second pending row: a product created offline. -/
def filaCreada : Row := ⟨6, some "sal", some "1", 0, some "INSERT", none⟩

/-- A table with the two pending rows. -/
def tablaPendiente : Table := ⟨[filaEditada, filaCreada], 6⟩

/-- The list of the server, with another camera for product 5. -/
def listaServidor : List Product := [{ id := some 5, nombre := some "pan", camara := some "2" }]

/-- A server whose first answer is an error and which accepts every later
request. -/
def fallaPrimero : Remote := fun n _ =>
  if n = 0 then .resp false .invalid else .resp true (.array [])

/-- A server that never answers. -/
def sinRed : Remote := fun _ _ => .rejects

end DbService

namespace DbService

/-- A table with two synced rows. -/
def tablaSincronizada : Table :=
  ⟨[⟨5, some "pan", some "3", 1, none, none⟩, ⟨6, some "sal", some "1", 1, none, none⟩], 6⟩

/-- A server that accepts every request. -/
def servidorAcepta : Remote := fun _ _ => .resp true (.array [])

end DbService

/-! ## productService.js: theorems -/

namespace ProductService

/-- C1 (fails on the code): `getProductos(true)` with a successful response
stores the list of the server in place of the local store, so the product
created offline, which had `needsSync = true`, is gone after the call. -/
theorem getProductos_online_drops_pending :
    panOffline ∈ [panOffline] ∧ panOffline.needsSync = some true ∧
    (getProductos true servidorConLeche [panOffline]).store =
      [{ id := some (.num 4), nombre := some "leche", camara := some "2" }] ∧
    panOffline ∉ (getProductos true servidorConLeche [panOffline]).store := by
  decide

/-- C2 (fails on the code): when every request of `syncData` fails, the
pending update and the pending create are stored with `needsSync = false`
and the pending delete is removed from the local store, whatever the engine. -/
theorem syncData_failed_calls_lose_pending (js : Engine) :
    (syncData js sinRed [lecheEditada, salBorrada, panOffline]).store =
      [{ lecheEditada with needsSync := some false, pendingDelete := some false },
       { panOffline with needsSync := some false, pendingDelete := some false }] ∧
    (syncData js sinRed [lecheEditada, salBorrada, panOffline]).calls =
      [⟨lecheEditada, .patch (some (.num 4)) (some "5")⟩,
       ⟨salBorrada, .delete (some (.num 6))⟩,
       ⟨panOffline, .post (some "pan") (some "3")⟩] ∧
    (syncData js servidorRechaza [panOffline]).store =
      [{ panOffline with needsSync := some false, pendingDelete := some false }] :=
  ⟨rfl, rfl, rfl⟩

/-- C3 (fails on the code): when the request fails, `createProducto` and
`updateCamara` called with `isConnected = true` store the product with
`needsSync = false`, whereas the same calls with `isConnected = false`
store it with `needsSync = true`, whatever the engine. -/
theorem online_failure_is_not_pending (js : Engine) :
    (createProducto js 1700000000000 "pan" "3" true sinRed []).store =
      [{ panOffline with needsSync := some false }] ∧
    (createProducto js 1700000000000 "pan" "3" true servidorRechaza []).store =
      [{ panOffline with needsSync := some false }] ∧
    (createProducto js 1700000000000 "pan" "3" false sinRed []).store = [panOffline] ∧
    (updateCamara js (.num 4) "5" true sinRed [lecheSincronizada]).map (·.store) =
      .ok [{ lecheEditada with needsSync := some false }] ∧
    (updateCamara js (.num 4) "5" true servidorRechaza [lecheSincronizada]).map (·.store) =
      .ok [{ lecheEditada with needsSync := some false }] ∧
    (updateCamara js (.num 4) "5" false sinRed [lecheSincronizada]).map (·.store) =
      .ok [lecheEditada] :=
  ⟨rfl, rfl, rfl, rfl, rfl, rfl⟩

/-- C6 (fails on the code): for a product created offline, when the server
accepts the create and answers `{ insertId: 7 }`, `syncData` sends one POST
and the stored product keeps its temporary id, whatever the engine. -/
theorem syncData_insertId_keeps_temporary_id (js : Engine) :
    (createProducto js 1700000000000 "pan" "3" false sinRed []).store = [panOffline] ∧
    (syncData js servidorInsertId [panOffline]).calls =
      [⟨panOffline, .post (some "pan") (some "3")⟩] ∧
    (syncData js servidorInsertId [panOffline]).store =
      [{ panOffline with needsSync := some false, pendingDelete := some false }] ∧
    ((syncData js servidorInsertId [panOffline]).store.map (·.id)) =
      [some (.str "1700000000000")] :=
  ⟨rfl, rfl, rfl, rfl⟩

end ProductService

namespace ProductService

theorem findIndex_isSome (pred : Producto → Bool) (l : List Producto)
    (h : ∃ p ∈ l, pred p = true) : ∃ k, findIndex pred l = some k := by
  induction l with
  | nil => obtain ⟨p, hp, _⟩ := h; cases hp
  | cons x xs ih =>
      by_cases hx : pred x = true
      · exact ⟨0, by simp [findIndex, hx]⟩
      · obtain ⟨p, hp, hpp⟩ := h
        rcases List.mem_cons.mp hp with rfl | hmem
        · exact absurd hpp hx
        · obtain ⟨k, hk⟩ := ih ⟨p, hmem, hpp⟩
          exact ⟨k + 1, by simp [findIndex, hx, hk]⟩

theorem length_modifyAt (f : Producto → Producto) (k : Nat) (l : List Producto) :
    (modifyAt f k l).length = l.length := by
  induction l generalizing k with
  | nil => cases k <;> rfl
  | cons x xs ih => cases k <;> simp [modifyAt, ih]

theorem modifyAt_modifyAt (f g : Producto → Producto) (k : Nat) (l : List Producto) :
    modifyAt g k (modifyAt f k l) = modifyAt (fun p => g (f p)) k l := by
  induction l generalizing k with
  | nil => cases k <;> rfl
  | cons x xs ih => cases k <;> simp [modifyAt, ih]

theorem findIndex_modifyAt (pred : Producto → Bool) (f : Producto → Producto)
    (hf : ∀ p, pred (f p) = pred p) (k : Nat) (l : List Producto) :
    findIndex pred (modifyAt f k l) = findIndex pred l := by
  induction l generalizing k with
  | nil => cases k <;> rfl
  | cons x xs ih => cases k <;> simp [modifyAt, findIndex, ih, hf]

theorem countP_modifyAt (pred : Producto → Bool) (f : Producto → Producto)
    (hf : ∀ p, pred (f p) = pred p) (k : Nat) (l : List Producto) :
    (modifyAt f k l).countP pred = l.countP pred := by
  induction l generalizing k with
  | nil => cases k <;> rfl
  | cons x xs ih => cases k <;> simp [modifyAt, List.countP_cons, ih, hf]

theorem findIndex_append_last (pred : Producto → Bool) (l : List Producto) (x : Producto)
    (hl : ∀ p ∈ l, pred p = false) (hx : pred x = true) :
    findIndex pred (l ++ [x]) = some l.length := by
  induction l with
  | nil => simp [findIndex, hx]
  | cons y ys ih =>
      have hy : pred y = false := hl y (List.mem_cons_self _ _)
      have := ih (fun p hp => hl p (List.mem_cons_of_mem _ hp))
      simp [findIndex, hy, this]

theorem modifyAt_append_last (f : Producto → Producto) (l : List Producto) (x : Producto) :
    modifyAt f l.length (l ++ [x]) = l ++ [f x] := by
  induction l with
  | nil => rfl
  | cons y ys ih => simp [modifyAt, ih]

theorem findIndex_split (pred : Producto → Bool) (l : List Producto) (k : Nat)
    (hk : findIndex pred l = some k) :
    ∃ pre p post, l = pre ++ p :: post ∧ (∀ q ∈ pre, pred q = false) ∧ pred p = true ∧
      ∀ f : Producto → Producto, modifyAt f k l = pre ++ f p :: post ∧
        (modifyAt f k l)[k]? = some (f p) := by
  induction l generalizing k with
  | nil => simp [findIndex] at hk
  | cons x xs ih =>
      by_cases hx : pred x = true
      · simp [findIndex, hx] at hk
        subst hk
        exact ⟨[], x, xs, rfl, by simp, hx, fun f => ⟨rfl, by simp [modifyAt]⟩⟩
      · simp only [findIndex, hx] at hk
        cases hj : findIndex pred xs with
        | none => simp [hj] at hk
        | some j =>
            simp [hj] at hk
            subst hk
            obtain ⟨pre, p, post, h1, h2, h3, h4⟩ := ih j hj
            refine ⟨x :: pre, p, post, by simp [h1], ?_, h3, fun f => ?_⟩
            · intro q hq
              rcases List.mem_cons.mp hq with rfl | hmem
              · simpa using hx
              · exact h2 q hmem
            · obtain ⟨h5, h6⟩ := h4 f
              exact ⟨by simp [modifyAt, h5], by simpa [modifyAt] using h6⟩

theorem updateCamara_eq (js : Engine) (id : JsId) (v : String) (isConnected : Bool)
    (remote : Remote) (store : List Producto) (k : Nat)
    (hk : findIndex (fun p => looseEqKey js p.id id) store = some k) :
    updateCamara js id v isConnected remote store =
      .ok ⟨(modifyAt (fun p => { p with camara := some v, needsSync := some (!isConnected) })
              k store)[k]?,
        modifyAt (fun p => { p with camara := some v, needsSync := some (!isConnected) }) k store,
        if isConnected then [.patch (some id) (some v)] else []⟩ := by
  cases isConnected with
  | false => simp [updateCamara, hk]
  | true =>
      simp only [updateCamara, hk, if_true]
      split <;> simp [modifyAt_modifyAt]

theorem deleteProducto_eq (js : Engine) (id : JsId) (isConnected : Bool) (remote : Remote)
    (store : List Producto) (k : Nat)
    (hk : findIndex (fun p => looseEqKey js p.id id) store = some k) :
    deleteProducto js id isConnected remote store =
      .ok ⟨(),
        if (isConnected && (remote 0 (.delete (some id))).isOk) = true then
          store.filter (fun p => !looseEqKey js p.id id)
        else
          modifyAt (fun p => { p with needsSync := some true, pendingDelete := some true })
            k store,
        if isConnected then [.delete (some id)] else []⟩ := by
  cases isConnected with
  | false => simp [deleteProducto, hk]
  | true =>
      simp only [deleteProducto, hk, if_true, Bool.true_and]
      cases hr : remote 0 (Request.delete (some id)) with
      | rejects => simp [Response.isOk]
      | resp ok body => cases ok <;> simp [Response.isOk]

theorem syncLoop_calls (js : Engine) (remote : Remote) (pend : List Producto) (n : Nat)
    (productos : List Producto) (log : List SyncCall) :
    (syncLoop js remote pend n productos log).2 = log ++ pend.filterMap (syncCall js) := by
  induction pend generalizing n productos log with
  | nil => simp [syncLoop]
  | cons p rest ih =>
      unfold syncLoop
      by_cases hd : truthy p.pendingDelete = true
      · simp [hd, ih, syncCall, syncRequest, List.filterMap_cons]
      · simp only [hd]
        cases hid : p.id with
        | none => simp [ih, syncCall, syncRequest, hd, hid, List.filterMap_cons]
        | some i =>
            by_cases hlen : jsLength (i.toString js) > 10
            · simp only [hlen, if_true]
              cases hr : remote n (Request.post p.nombre p.camara) with
              | rejects =>
                  simp [ih, syncCall, syncRequest, hd, hid, hlen, List.filterMap_cons]
              | resp ok body =>
                  cases ok with
                  | false =>
                      simp [ih, syncCall, syncRequest, hd, hid, hlen, List.filterMap_cons]
                  | true =>
                      cases hb : body.asData with
                      | none =>
                          simp [hb, ih, syncCall, syncRequest, hd, hid, hlen,
                            List.filterMap_cons]
                      | some data =>
                          simp [hb, ih, syncCall, syncRequest, hd, hid, hlen,
                            List.filterMap_cons]
            · simp [ih, syncCall, syncRequest, hd, hid, hlen, List.filterMap_cons]

theorem syncData_calls (js : Engine) (remote : Remote) (store : List Producto) :
    (syncData js remote store).calls =
      (store.filter (fun p => truthy p.needsSync)).filterMap (syncCall js) := by
  unfold syncData
  by_cases h : (store.filter (fun p => truthy p.needsSync)).length = 0
  · simp only [h, if_true]
    rw [List.length_eq_zero.mp h]
    rfl
  · simp only [h, if_false, syncLoop_calls, List.nil_append]

end ProductService

namespace ProductService

theorem countP_split (pred : Producto → Bool) (pre post : List Producto) (p : Producto)
    (hpre : ∀ q ∈ pre, pred q = false) (hp : pred p = true)
    (hone : (pre ++ p :: post).countP pred = 1) : ∀ q ∈ post, pred q = false := by
  have h0 : pre.countP pred = 0 := by
    rw [List.countP_eq_zero]
    intro q hq
    simp [hpre q hq]
  rw [List.countP_append, List.countP_cons, h0, hp] at hone
  have h1 : post.countP pred = 0 := by simpa using hone
  rw [List.countP_eq_zero] at h1
  intro q hq
  simpa using h1 q hq

/-- C7: coalescing in `updateCamara`. For every local store in which exactly
one record has id `i` (ids compared with the `==` of the code) and for every
two values `a` and `b`, `updateCamara(i, a, false)` followed by
`updateCamara(i, b, false)` succeeds without any request and leaves the store
with the same number of records as before, exactly one of them with id `i`;
that record has `camara = b` and `needsSync = true`, and the store equals the
one produced by the single call `updateCamara(i, b, false)`. -/
theorem updateCamara_twice_offline (js : Engine) (store : List Producto) (i : JsId)
    (a b : String) (r1 r2 r3 : Remote)
    (h : store.countP (fun p => looseEqKey js p.id i) = 1) :
    ∃ o1 o2 o3,
      updateCamara js i a false r1 store = .ok o1 ∧
      updateCamara js i b false r2 o1.store = .ok o2 ∧
      updateCamara js i b false r3 store = .ok o3 ∧
      o2.store = o3.store ∧
      o2.store.length = store.length ∧
      o2.store.countP (fun p => looseEqKey js p.id i) = 1 ∧
      (∀ r ∈ o2.store, looseEqKey js r.id i = true →
        r.camara = some b ∧ r.needsSync = some true) ∧
      o1.calls = [] ∧ o2.calls = [] := by
  have hex : ∃ p ∈ store, looseEqKey js p.id i = true := by
    have hpos : 0 < store.countP (fun p => looseEqKey js p.id i) := by omega
    exact List.countP_pos_iff.mp hpos
  obtain ⟨k, hk⟩ := findIndex_isSome (fun p => looseEqKey js p.id i) store hex
  obtain ⟨pre, p, post, hsplit, hpre, hp, hmod⟩ :=
    findIndex_split (fun p => looseEqKey js p.id i) store k hk
  have hpost := countP_split (fun p => looseEqKey js p.id i) pre post p hpre hp
    (by rw [← hsplit]; exact h)
  have hk1 : findIndex (fun p => looseEqKey js p.id i)
      (modifyAt (fun p => { p with camara := some a, needsSync := some (!false) }) k store)
      = some k :=
    (findIndex_modifyAt (fun p => looseEqKey js p.id i)
      (fun p => { p with camara := some a, needsSync := some (!false) }) (fun _ => rfl) k
      store).trans hk
  refine ⟨_, _, _, updateCamara_eq js i a false r1 store k hk,
    updateCamara_eq js i b false r2 _ k hk1, updateCamara_eq js i b false r3 store k hk,
    ?_, ?_, ?_, ?_, rfl, rfl⟩
  · simp only [modifyAt_modifyAt]
  · simp only [length_modifyAt]
  · simp only [modifyAt_modifyAt]
    rw [countP_modifyAt (fun p => looseEqKey js p.id i)
      (fun p => { p with camara := some b, needsSync := some (!false) }) (fun _ => rfl) k
      store]
    exact h
  · simp only [modifyAt_modifyAt]
    intro r hr hri
    rw [(hmod (fun p => { p with camara := some b, needsSync := some (!false) })).1] at hr
    rcases List.mem_append.mp hr with hr1 | hr2
    · rw [hpre r hr1] at hri
      cases hri
    · rcases List.mem_cons.mp hr2 with rfl | hr3
      · exact ⟨rfl, rfl⟩
      · have hfalse : looseEqKey js r.id i = false := hpost r hr3
        rw [hfalse] at hri
        cases hri

/-- Witness of `updateCamara_twice_offline` on a store of two products. -/
theorem updateCamara_twice_offline_witness :
    [panOffline, lecheSincronizada].countP (fun p => looseEqKey motorEjemplo p.id (.num 4))
      = 1 ∧
    ∃ o1 o2 o3,
      updateCamara motorEjemplo (.num 4) "5" false sinRed [panOffline, lecheSincronizada]
        = .ok o1 ∧
      updateCamara motorEjemplo (.num 4) "7" false sinRed o1.store = .ok o2 ∧
      updateCamara motorEjemplo (.num 4) "7" false sinRed [panOffline, lecheSincronizada]
        = .ok o3 ∧
      o2.store = o3.store ∧
      o2.store.length = [panOffline, lecheSincronizada].length ∧
      o2.store.countP (fun p => looseEqKey motorEjemplo p.id (.num 4)) = 1 ∧
      (∀ r ∈ o2.store, looseEqKey motorEjemplo r.id (.num 4) = true →
        r.camara = some "7" ∧ r.needsSync = some true) ∧
      o1.calls = [] ∧ o2.calls = [] :=
  ⟨by decide,
   updateCamara_twice_offline motorEjemplo [panOffline, lecheSincronizada] (.num 4) "5" "7"
    sinRed sinRed sinRed (by decide)⟩

/-- C9 (as amended): a record awaiting deletion accepts further edits. For
every local store containing a record with `pendingDelete = true` and id `i`,
`updateCamara(i, value, isConnected)` does not fail: it stores `camara = value`
in the first record with id `i`, which is the record awaiting deletion when
`i` identifies one record, returns that record, and leaves its id, its nombre,
its `pendingDelete` flag and every other record as they were.  With
`isConnected = false` it sends no request and stores `needsSync = true`; with
`isConnected = true` it sends one PATCH. -/
theorem updateCamara_accepts_pending_delete (js : Engine) (store : List Producto)
    (i : JsId) (value : String) (isConnected : Bool) (remote : Remote)
    (h : ∃ p ∈ store, p.pendingDelete = some true ∧ looseEqKey js p.id i = true) :
    ∃ o pre p post ns,
      updateCamara js i value isConnected remote store = .ok o ∧
      store = pre ++ p :: post ∧
      (∀ q ∈ pre, looseEqKey js q.id i = false) ∧ looseEqKey js p.id i = true ∧
      (store.countP (fun q => looseEqKey js q.id i) = 1 → p.pendingDelete = some true) ∧
      o.store = pre ++ { p with camara := some value, needsSync := ns } :: post ∧
      o.value = some { p with camara := some value, needsSync := ns } ∧
      (isConnected = false → ns = some true) ∧
      o.calls = if isConnected then [.patch (some i) (some value)] else [] := by
  obtain ⟨d, hd, hdel, hdi⟩ := h
  obtain ⟨k, hk⟩ := findIndex_isSome (fun p => looseEqKey js p.id i) store ⟨d, hd, hdi⟩
  obtain ⟨pre, p, post, hsplit, hpre, hp, hmod⟩ :=
    findIndex_split (fun p => looseEqKey js p.id i) store k hk
  obtain ⟨hm1, hm2⟩ :=
    hmod (fun p => { p with camara := some value, needsSync := some (!isConnected) })
  refine ⟨_, pre, p, post, some (!isConnected),
    updateCamara_eq js i value isConnected remote store k hk, hsplit, hpre, hp, ?_, hm1, hm2,
    ?_, rfl⟩
  · intro hone
    have hpost := countP_split (fun p => looseEqKey js p.id i) pre post p hpre hp
      (by rw [← hsplit]; exact hone)
    rw [hsplit] at hd
    rcases List.mem_append.mp hd with h1 | h2
    · rw [hpre d h1] at hdi
      cases hdi
    · rcases List.mem_cons.mp h2 with rfl | h3
      · exact hdel
      · have hfalse : looseEqKey js d.id i = false := hpost d h3
        rw [hfalse] at hdi
        cases hdi
  · intro hc
    rw [hc]
    rfl

/-- Witness of `updateCamara_accepts_pending_delete` on a product deleted
offline, edited while online with a server that accepts the PATCH. -/
theorem updateCamara_accepts_pending_delete_witness :
    (∃ p ∈ [lecheEditada, salBorrada],
      p.pendingDelete = some true ∧ looseEqKey motorEjemplo p.id (.num 6) = true) ∧
    ∃ o pre p post ns,
      updateCamara motorEjemplo (.num 6) "9" true servidorAcepta [lecheEditada, salBorrada]
        = .ok o ∧
      [lecheEditada, salBorrada] = pre ++ p :: post ∧
      (∀ q ∈ pre, looseEqKey motorEjemplo q.id (.num 6) = false) ∧
      looseEqKey motorEjemplo p.id (.num 6) = true ∧
      ([lecheEditada, salBorrada].countP (fun q => looseEqKey motorEjemplo q.id (.num 6)) = 1 →
        p.pendingDelete = some true) ∧
      o.store = pre ++ { p with camara := some "9", needsSync := ns } :: post ∧
      o.value = some { p with camara := some "9", needsSync := ns } ∧
      (true = false → ns = some true) ∧
      o.calls = if true then [.patch (some (.num 6)) (some "9")] else [] :=
  ⟨⟨salBorrada, by decide, by decide, by decide⟩,
   updateCamara_accepts_pending_delete motorEjemplo [lecheEditada, salBorrada] (.num 6) "9"
    true servidorAcepta ⟨salBorrada, by decide, by decide, by decide⟩⟩

/-- C9 (as stated, refuted): on a product marked `pendingDelete = true`,
`updateCamara` returns without error and stores the new camera; called with
`isConnected = true` it also sends a PATCH. -/
theorem updateCamara_pending_delete_not_rejected :
    salBorrada.pendingDelete = some true ∧
    (updateCamara motorEjemplo (.num 6) "9" false sinRed [salBorrada]).map (·.store) =
      .ok [{ salBorrada with camara := some "9" }] ∧
    [{ salBorrada with camara := some "9" }] ≠ [salBorrada] ∧
    (updateCamara motorEjemplo (.num 6) "9" true servidorAcepta [salBorrada]).map (·.calls) =
      .ok [.patch (some (.num 6)) (some "9")] := by
  refine ⟨rfl, rfl, by decide, rfl⟩

end ProductService

namespace ProductService

theorem createProducto_offline (js : Engine) (now : Nat) (nombre camara : String)
    (remote : Remote) (store : List Producto) :
    (createProducto js now nombre camara false remote store).store =
      store ++ [{ id := some (temporaryId js now), nombre := some nombre,
                  camara := some camara, needsSync := some true }] ∧
    (createProducto js now nombre camara false remote store).value.id =
      some (temporaryId js now) ∧
    (createProducto js now nombre camara false remote store).calls = [] := by
  simp [createProducto]

theorem deleteProducto_offline_fresh (js : Engine) (t : JsId) (remote : Remote)
    (store : List Producto) (x : Producto)
    (hfresh : ∀ p ∈ store, looseEqKey js p.id t = false)
    (hx : looseEqKey js x.id t = true) :
    deleteProducto js t false remote (store ++ [x]) =
      .ok ⟨(), store ++ [{ x with needsSync := some true, pendingDelete := some true }], []⟩ := by
  have hk := findIndex_append_last (fun p => looseEqKey js p.id t) store x hfresh hx
  simp [deleteProducto, hk, modifyAt_append_last]

/-- C4 (as amended): for every local store in which no record has id `t`
yet, after `createProducto(nombre, camara, false)` has returned a record with
temporary id `t` and `deleteProducto(t, false)` has been called, the local
store still holds that record, marked `needsSync = true` and
`pendingDelete = true`, and a following `syncData` sends exactly one request
for id `t`, a DELETE (no POST and no PATCH). -/
theorem offline_create_then_delete (js : Engine) (store : List Producto) (now : Nat)
    (nombre camara : String) (r1 r2 r3 : Remote)
    (hfresh : ∀ p ∈ store, looseEqKey js p.id (temporaryId js now) = false) :
    ∃ o,
      (createProducto js now nombre camara false r1 store).value.id =
        some (temporaryId js now) ∧
      deleteProducto js (temporaryId js now) false r2
        (createProducto js now nombre camara false r1 store).store = .ok o ∧
      o.store = store ++ [creadoYBorrado js now nombre camara] ∧
      o.calls = [] ∧
      (syncData js r3 o.store).calls.filter
          (fun c => c.producto.id = some (temporaryId js now)) =
        [⟨creadoYBorrado js now nombre camara, .delete (some (temporaryId js now))⟩] := by
  obtain ⟨hs, hv, _⟩ := createProducto_offline js now nombre camara r1 store
  refine ⟨⟨(), store ++ [creadoYBorrado js now nombre camara], []⟩, hv, ?_, rfl, rfl, ?_⟩
  · rw [hs]
    exact deleteProducto_offline_fresh js _ r2 store _ hfresh
      (by simp [temporaryId, looseEqKey, looseEq])
  · rw [syncData_calls]
    have hne : ∀ p ∈ store, p.id ≠ some (temporaryId js now) := by
      intro p hp hid
      have := hfresh p hp
      rw [hid] at this
      simp [temporaryId, looseEqKey, looseEq] at this
    have hstore :
        ((store.filter (fun p => truthy p.needsSync)).filterMap (syncCall js)).filter
          (fun c => c.producto.id = some (temporaryId js now)) = [] := by
      rw [List.filter_eq_nil_iff]
      intro c hc
      obtain ⟨p, hp, hpc⟩ := List.mem_filterMap.mp hc
      have hp2 : p ∈ store := (List.mem_filter.mp hp).1
      simp only [syncCall, Option.map_eq_some'] at hpc
      obtain ⟨req, _, rfl⟩ := hpc
      simpa using hne p hp2
    simp only [List.filter_append, List.filterMap_append, hstore, List.nil_append]
    simp [creadoYBorrado, truthy, syncCall, syncRequest]

/-- Witness of `offline_create_then_delete` on a store of one synced
product, at `Date.now() = 1700000000000`. -/
theorem offline_create_then_delete_witness :
    (∀ p ∈ [lecheSincronizada],
      looseEqKey motorEjemplo p.id (temporaryId motorEjemplo 1700000000000) = false) ∧
    ∃ o,
      (createProducto motorEjemplo 1700000000000 "pan" "3" false sinRed
          [lecheSincronizada]).value.id =
        some (temporaryId motorEjemplo 1700000000000) ∧
      deleteProducto motorEjemplo (temporaryId motorEjemplo 1700000000000) false sinRed
        (createProducto motorEjemplo 1700000000000 "pan" "3" false sinRed
          [lecheSincronizada]).store = .ok o ∧
      o.store = [lecheSincronizada] ++ [creadoYBorrado motorEjemplo 1700000000000 "pan" "3"] ∧
      o.calls = [] ∧
      (syncData motorEjemplo servidorConLeche o.store).calls.filter
          (fun c => c.producto.id = some (temporaryId motorEjemplo 1700000000000)) =
        [⟨creadoYBorrado motorEjemplo 1700000000000 "pan" "3",
          .delete (some (temporaryId motorEjemplo 1700000000000))⟩] :=
  ⟨by decide,
   offline_create_then_delete motorEjemplo [lecheSincronizada] 1700000000000 "pan" "3" sinRed
    sinRed servidorConLeche (by decide)⟩

/-- C4 (as stated, refuted): after `createProducto("pan", "3", false)` and
`deleteProducto(t, false)` on an empty store, the store holds the record with
id `t` and `needsSync = true`, and the following `syncData` sends a DELETE
for id `t`. -/
theorem offline_create_then_delete_is_pending :
    (createProducto motorEjemplo 1700000000000 "pan" "3" false sinRed []).value.id =
      some (.str "1700000000000") ∧
    (deleteProducto motorEjemplo (.str "1700000000000") false sinRed
        (createProducto motorEjemplo 1700000000000 "pan" "3" false sinRed []).store).map
      (·.store) = .ok [{ panOffline with pendingDelete := some true }] ∧
    ({ panOffline with pendingDelete := some true } : Producto).needsSync = some true ∧
    (syncData motorEjemplo sinRed [{ panOffline with pendingDelete := some true }]).calls =
      [⟨{ panOffline with pendingDelete := some true },
        .delete (some (.str "1700000000000"))⟩] := by
  refine ⟨by decide, rfl, rfl, by decide⟩

/-! ### Reconciliation twice -/

theorem needsSync_of_mem_limpiarFlags (productos : List Producto) (p : Producto)
    (h : p ∈ limpiarFlags productos) : truthy p.needsSync = false := by
  unfold limpiarFlags at h
  obtain ⟨q, _, rfl⟩ := List.mem_map.mp h
  rfl

theorem syncData_of_no_pending (js : Engine) (remote : Remote) (store : List Producto)
    (h : store.filter (fun p => truthy p.needsSync) = []) :
    syncData js remote store = ⟨store, []⟩ := by
  simp [syncData, h]

theorem no_pending_after_syncData (js : Engine) (remote : Remote) (store : List Producto) :
    (syncData js remote store).store.filter (fun p => truthy p.needsSync) = [] := by
  unfold syncData
  by_cases h : (store.filter (fun p => truthy p.needsSync)).length = 0
  · simp only [h, if_true]
    exact List.length_eq_zero.mp h
  · simp only [h, if_false]
    rw [List.filter_eq_nil_iff]
    intro p hp
    simp [needsSync_of_mem_limpiarFlags _ p hp]

/-- C11: idempotent reconciliation in `syncData`. For every engine, every
local store and every behaviour of the remote in the two runs, a second run
of `syncData` made right after a first one, with no mutation in between,
sends no request and leaves the local store exactly as the first run left
it. -/
theorem syncData_twice (js : Engine) (r1 r2 : Remote) (store : List Producto) :
    (syncData js r2 (syncData js r1 store).store).calls = [] ∧
    (syncData js r2 (syncData js r1 store).store).store = (syncData js r1 store).store := by
  rw [syncData_of_no_pending js r2 _ (no_pending_after_syncData js r1 store)]
  exact ⟨rfl, rfl⟩

/-! ### Deletion -/

/-- C13: `deleteProducto` removes a record locally only if the server
deleted it. For every engine and every local store containing a record with
id `i` (ids compared with the `==` of the code), the call succeeds and: no
record with id `i` is left in the store if and only if `isConnected` is true
and the DELETE returned ok; in every other case the first record with id `i`
stays at its place with `needsSync = true`, `pendingDelete = true` and its
other fields unchanged, and every other record is unchanged; in both cases
the records with another id are unchanged and in the same order. -/
theorem deleteProducto_frame (js : Engine) (store : List Producto) (i : JsId)
    (isConnected : Bool) (remote : Remote)
    (h : ∃ p ∈ store, looseEqKey js p.id i = true) :
    ∃ o pre p post,
      deleteProducto js i isConnected remote store = .ok o ∧
      store = pre ++ p :: post ∧
      (∀ q ∈ pre, looseEqKey js q.id i = false) ∧ looseEqKey js p.id i = true ∧
      ((∀ q ∈ o.store, looseEqKey js q.id i = false) ↔
        (isConnected = true ∧ (remote 0 (.delete (some i))).isOk = true)) ∧
      (¬ (isConnected = true ∧ (remote 0 (.delete (some i))).isOk = true) →
        o.store =
          pre ++ { p with needsSync := some true, pendingDelete := some true } :: post) ∧
      o.store.filter (fun q => !looseEqKey js q.id i) =
        store.filter (fun q => !looseEqKey js q.id i) := by
  obtain ⟨k, hk⟩ := findIndex_isSome (fun p => looseEqKey js p.id i) store h
  obtain ⟨pre, p, post, hsplit, hpre, hp, hmodall⟩ :=
    findIndex_split (fun p => looseEqKey js p.id i) store k hk
  have hmod :=
    (hmodall (fun p => { p with needsSync := some true, pendingDelete := some true })).1
  refine ⟨_, pre, p, post, deleteProducto_eq js i isConnected remote store k hk, hsplit, hpre,
    hp, ?_, ?_, ?_⟩
  · by_cases hc : (isConnected && (remote 0 (.delete (some i))).isOk) = true
    · simp only [hc, if_true]
      constructor
      · intro _
        simpa using hc
      · intro _ q hq
        simpa using (List.mem_filter.mp hq).2
    · simp only [hc, if_false, hmod]
      constructor
      · intro hall
        have := hall { p with needsSync := some true, pendingDelete := some true } (by simp)
        simp only at this
        rw [hp] at this
        cases this
      · intro hcon
        exact absurd (by simpa using hcon) hc
  · intro hnot
    have hc : ¬ (isConnected && (remote 0 (.delete (some i))).isOk) = true := by
      simpa using hnot
    rw [if_neg hc, hmod]
  · by_cases hc : (isConnected && (remote 0 (.delete (some i))).isOk) = true
    · simp only [hc, if_true, List.filter_filter, Bool.and_self]
    · rw [if_neg hc, hmod, hsplit]
      simp [List.filter_append, List.filter_cons, hp]

/-- Witness of `deleteProducto_frame`: the second product of a store of two
is deleted while the server rejects the request. -/
theorem deleteProducto_frame_witness :
    (∃ p ∈ [panOffline, lecheSincronizada], looseEqKey motorEjemplo p.id (.num 4) = true) ∧
    ∃ o pre p post,
      deleteProducto motorEjemplo (.num 4) true servidorRechaza
        [panOffline, lecheSincronizada] = .ok o ∧
      [panOffline, lecheSincronizada] = pre ++ p :: post ∧
      (∀ q ∈ pre, looseEqKey motorEjemplo q.id (.num 4) = false) ∧
      looseEqKey motorEjemplo p.id (.num 4) = true ∧
      ((∀ q ∈ o.store, looseEqKey motorEjemplo q.id (.num 4) = false) ↔
        (true = true ∧ (servidorRechaza 0 (.delete (some (.num 4)))).isOk = true)) ∧
      (¬ (true = true ∧ (servidorRechaza 0 (.delete (some (.num 4)))).isOk = true) →
        o.store =
          pre ++ { p with needsSync := some true, pendingDelete := some true } :: post) ∧
      o.store.filter (fun q => !looseEqKey motorEjemplo q.id (.num 4)) =
        [panOffline, lecheSincronizada].filter
          (fun q => !looseEqKey motorEjemplo q.id (.num 4)) :=
  ⟨⟨lecheSincronizada, by decide, by decide⟩,
   deleteProducto_frame motorEjemplo [panOffline, lecheSincronizada] (.num 4) true
    servidorRechaza ⟨lecheSincronizada, by decide, by decide⟩⟩

end ProductService

/-! ## ProductosScreen.js: theorems -/

namespace ProductosScreen

open ProductService

/-- C14 (fails on the code): a reconciliation is run while another one is in
progress. The screen is in the state left by a run started from the button
that has not written the store yet (`syncing = true`, store still holding the
product created offline) and the connectivity has gone off and on again
(`wasConnected = false`, `isConnected = true`). The sync button is disabled,
but the effect calls `handleSync`, which does not read `syncing`: the second
run sends the same POST as the first one and writes the local store, whatever
the engine. -/
theorem handleSync_runs_while_syncing (js : Engine) :
    botonDeshabilitado true ⟨true, false, [panOffline]⟩ = true ∧
    (syncData js servidorAcepta [panOffline]).calls =
      [⟨panOffline, .post (some "pan") (some "3")⟩] ∧
    (efectoConexion js true servidorAcepta servidorConLeche ⟨true, false, [panOffline]⟩
        [panOffline]).syncCalls =
      [⟨panOffline, .post (some "pan") (some "3")⟩] ∧
    (efectoConexion js true servidorAcepta servidorConLeche ⟨true, false, [panOffline]⟩
        [panOffline]).loadCalls = [.getAll] ∧
    (efectoConexion js true servidorAcepta servidorConLeche ⟨true, false, [panOffline]⟩
        [panOffline]).store =
      [{ id := some (.num 4), nombre := some "leche", camara := some "2" }] ∧
    handleSync js true servidorAcepta servidorConLeche ⟨true, false, [panOffline]⟩
        [panOffline] =
      handleSync js true servidorAcepta servidorConLeche ⟨false, false, [panOffline]⟩
        [panOffline] :=
  ⟨rfl, rfl, rfl, rfl, rfl, rfl⟩

end ProductosScreen

/-! ## productService.js: temporary and permanent ids -/

namespace ProductService

theorem toDigitsCore_length_ge (f : Nat) : ∀ (n e : Nat) (ds : List Char),
    n < f → 10 ^ e ≤ n → e + 1 + ds.length ≤ (Nat.toDigitsCore 10 f n ds).length := by
  induction f with
  | zero => intro n e ds h; omega
  | succ f ih =>
      intro n e ds hn he
      simp only [Nat.toDigitsCore]
      by_cases h0 : n / 10 = 0
      · simp only [h0, if_true, List.length_cons]
        have hlt : n < 10 := by omega
        have : e = 0 := by
          by_contra hne
          have : 10 ^ 1 ≤ 10 ^ e := Nat.pow_le_pow_right (by decide) (by omega)
          omega
        omega
      · simp only [h0, if_false]
        have hn2 : n / 10 < f := by omega
        cases e with
        | zero =>
            have := ih (n / 10) 0 (Nat.digitChar (n % 10) :: ds) hn2 (by simp; omega)
            simp only [List.length_cons] at this
            omega
        | succ e =>
            have hle : 10 ^ e ≤ n / 10 := by
              rw [Nat.le_div_iff_mul_le (by decide)]
              rw [pow_succ] at he
              exact he
            have := ih (n / 10) e (Nat.digitChar (n % 10) :: ds) hn2 hle
            simp only [List.length_cons] at this
            omega

theorem foldl_units_ge (cs : List Char) (n : Nat) :
    n + cs.length ≤ cs.foldl (fun n c => n + (if c.toNat < 65536 then 1 else 2)) n := by
  induction cs generalizing n with
  | nil => simp
  | cons c cs ih =>
      simp only [List.foldl_cons, List.length_cons]
      by_cases hc : c.toNat < 65536
      · have := ih (n + 1)
        simp only [hc, if_true]
        omega
      · have := ih (n + 2)
        simp only [hc, if_false]
        omega

theorem length_le_jsLength (s : String) : s.length ≤ jsLength s := by
  have h := foldl_units_ge s.data 0
  rw [Nat.zero_add] at h
  exact h

theorem temporary_id_length (js : Engine) (t : Nat) (h : 10 ^ 10 ≤ t) (hmax : t < 10 ^ 21) :
    temporaryId js t = .str (ToString.toString t) ∧
    10 < jsLength ((temporaryId js t).toString js) := by
  have hid : temporaryId js t = .str (ToString.toString t) := by
    simp only [temporaryId, JsId.toString, Int.natAbs_ofNat, hmax, if_true]
    rfl
  refine ⟨hid, ?_⟩
  rw [hid]
  have h1 := toDigitsCore_length_ge (t + 1) t 10 [] (by omega) h
  have h2 : 10 < (ToString.toString t).length := by
    simpa [ToString.toString, Nat.repr, Nat.toDigits, String.length, List.asString] using h1
  have h3 := length_le_jsLength (ToString.toString t)
  simp only [JsId.toString]
  omega

/-- The request `syncData` sends depends on the length of the id only: for
every pending record that is not a pending delete, with id `i`, the only
request sent for it is a POST `/productos` when `i.toString()` has more than
10 UTF-16 units, which is the case of the temporary id of every timestamp
from `10^10` on, and a PATCH `/productos/<i>/camara` otherwise. -/
theorem syncData_dispatch_by_id_length (js : Engine) (remote : Remote)
    (store : List Producto) (p : Producto) (i : JsId) (hp : p ∈ store)
    (hs : truthy p.needsSync = true) (hd : truthy p.pendingDelete = false)
    (hid : p.id = some i) :
    (⟨p, if 10 < jsLength (i.toString js) then .post p.nombre p.camara
        else .patch (some i) p.camara⟩ : SyncCall) ∈ (syncData js remote store).calls ∧
    (∀ c ∈ (syncData js remote store).calls, c.producto = p →
      c.request = if 10 < jsLength (i.toString js) then .post p.nombre p.camara
        else .patch (some i) p.camara) ∧
    (∀ t : Nat, 10 ^ 10 ≤ t → t < 10 ^ 21 → i = temporaryId js t →
      10 < jsLength (i.toString js)) := by
  have hcall : syncCall js p = some ⟨p, if 10 < jsLength (i.toString js) then
      .post p.nombre p.camara else .patch (some i) p.camara⟩ := by
    by_cases hlen : 10 < jsLength (i.toString js) <;>
      simp [syncCall, syncRequest, hd, hid, hlen]
  rw [syncData_calls]
  refine ⟨?_, ?_, ?_⟩
  · exact List.mem_filterMap.mpr ⟨p, List.mem_filter.mpr ⟨hp, hs⟩, hcall⟩
  · intro c hc hcp
    obtain ⟨q, _, hq⟩ := List.mem_filterMap.mp hc
    simp only [syncCall, Option.map_eq_some'] at hq
    obtain ⟨req, hreq, rfl⟩ := hq
    simp only at hcp
    subst hcp
    have h2 : syncCall js q = some ⟨q, req⟩ := by simp [syncCall, hreq]
    rw [hcall] at h2
    simpa using (Option.some.inj h2).symm
  · intro t ht hmax hi
    rw [hi]
    exact (temporary_id_length js t ht hmax).2

/-- C15 (fails on the code): a pending camera update of a product whose
server-assigned id has 24 characters takes the branch of the temporary ids:
`syncData` sends for it a POST `/productos` and no PATCH
`/productos/<id>/camara`, whatever the engine. -/
theorem syncData_posts_long_server_id (js : Engine) :
    truthy quesoEditado.needsSync = true ∧ truthy quesoEditado.pendingDelete = false ∧
    jsLength ((JsId.str "507f1f77bcf86cd799439011").toString js) = 24 ∧
    (syncData js servidorAcepta [quesoEditado]).calls =
      [⟨quesoEditado, .post (some "queso") (some "8")⟩] ∧
    (⟨quesoEditado, .patch (some (.str "507f1f77bcf86cd799439011")) (some "8")⟩ : SyncCall) ∉
      ([⟨quesoEditado, .post (some "queso") (some "8")⟩] : List SyncCall) :=
  ⟨rfl, rfl, rfl, rfl, by decide⟩

end ProductService

/-! ## dbService.js: theorems -/

namespace DbService

theorem mem_insertRow (r x : Row) (l : List Row) : x ∈ insertRow r l ↔ x = r ∨ x ∈ l := by
  induction l with
  | nil => simp [insertRow]
  | cons y ys ih =>
      unfold insertRow
      split
      · simp
      · simp only [List.mem_cons, ih]
        tauto

theorem foldl_max_ge (l : List Row) (m : Int) :
    m ≤ l.foldl (fun m r => max m r.id) m ∧ ∀ r ∈ l, r.id ≤ l.foldl (fun m r => max m r.id) m := by
  induction l generalizing m with
  | nil => simp
  | cons y ys ih =>
      obtain ⟨h1, h2⟩ := ih (max m y.id)
      refine ⟨le_trans (le_max_left _ _) h1, ?_⟩
      intro r hr
      rcases List.mem_cons.mp hr with rfl | hmem
      · exact le_trans (le_max_right _ _) h1
      · exact h2 r hmem

theorem lt_nextId (t : Table) (r : Row) (h : r ∈ t.rows) : r.id < nextId t := by
  have := (foldl_max_ge t.rows t.seq).2 r h
  unfold nextId
  omega

theorem map_insertRow_of_fixed (f : Row → Row) (r : Row) (l : List Row)
    (hl : ∀ x ∈ l, f x = x) (hr : (f r).id = r.id) :
    (insertRow r l).map f = insertRow (f r) l := by
  induction l with
  | nil => simp [insertRow]
  | cons y ys ih =>
      have hy : f y = y := hl y (List.mem_cons_self _ _)
      have hys := ih (fun x hx => hl x (List.mem_cons_of_mem _ hx))
      unfold insertRow
      rw [hr]
      split
      · have hall : (y :: ys).map f = y :: ys :=
          (List.map_congr_left hl).trans (List.map_id _)
        rw [List.map_cons, hall]
      · rw [List.map_cons, hy, hys]

theorem createProducto_unconfirmed (nombre camara : String) (isConnected : Bool)
    (remote : Remote) (t : Table)
    (h : isConnected = false ∨ ∀ req body, remote 0 req ≠ .resp true body) :
    (createProducto nombre camara isConnected remote t).1.id = some (nextId t) ∧
    (createProducto nombre camara isConnected remote t).2.1 =
      (sqlInsert (some nombre) (some camara) 0 (some "INSERT") t).2 := by
  cases isConnected with
  | false => simp [createProducto, sqlInsert]
  | true =>
      have h2 : ∀ req body, remote 0 req ≠ .resp true body := by
        rcases h with h | h
        · cases h
        · exact h
      simp only [createProducto, if_true]
      cases hr : remote 0 (Request.post (some nombre) (some camara)) with
      | rejects => simp [sqlInsert]
      | resp ok body =>
          cases ok with
          | false => simp [sqlInsert]
          | true => exact absurd hr (h2 _ _)

theorem updateProducto_unconfirmed (id : Int) (nombre camara updatedField : Option String)
    (isConnected : Bool) (remote : Remote) (t : Table)
    (h : isConnected = false ∨ ∀ req body, remote 0 req ≠ .resp true body) :
    (updateProducto id nombre camara updatedField isConnected remote t).2.1 =
      sqlUpdate nombre camara 0 (some "UPDATE") updatedField id t := by
  cases isConnected with
  | false => simp [updateProducto]
  | true =>
      have h2 : ∀ req body, remote 0 req ≠ .resp true body := by
        rcases h with h | h
        · cases h
        · exact h
      simp only [updateProducto, if_true]
      split
      · rename_i hr
        exact absurd hr (h2 _ _)
      · rfl

end DbService

namespace DbService

/-- On a table with room for a new rowid, an unconfirmed `updateProducto` on
a row that `createProducto` inserted
and the server has not confirmed leaves the row with `synced = 0`, the latest
`nombre` and `camara`, and `operation = "UPDATE"`, for which `syncWithServer`
builds a PUT to `/productos/<id>`, or a PATCH to `/productos/<id>/camara` when
`updatedField` is `"camara"`, addressed to the local id. -/
theorem update_after_pending_create (t : Table) (nombre camara : String)
    (nombre2 camara2 updatedField : Option String) (c1 c2 : Bool) (r1 r2 : Remote)
    (_hroom : nextId t < 2 ^ 63)
    (h1 : c1 = false ∨ ∀ req body, r1 0 req ≠ .resp true body)
    (h2 : c2 = false ∨ ∀ req body, r2 0 req ≠ .resp true body) :
    (createProducto nombre camara c1 r1 t).1.id = some (nextId t) ∧
    (createProducto nombre camara c1 r1 t).2.1.rows =
      insertRow ⟨nextId t, some nombre, some camara, 0, some "INSERT", none⟩ t.rows ∧
    (updateProducto (nextId t) nombre2 camara2 updatedField c2 r2
        (createProducto nombre camara c1 r1 t).2.1).2.1.rows =
      insertRow ⟨nextId t, nombre2, camara2, 0, some "UPDATE", updatedField⟩ t.rows ∧
    requestFor ⟨nextId t, nombre2, camara2, 0, some "UPDATE", updatedField⟩ =
      some (if updatedField = some "camara" then .patch (nextId t) camara2
            else .put (nextId t) nombre2 camara2) := by
  obtain ⟨hid, htab⟩ := createProducto_unconfirmed nombre camara c1 r1 t h1
  refine ⟨hid, ?_, ?_, ?_⟩
  · rw [htab]; rfl
  · rw [updateProducto_unconfirmed _ _ _ _ _ _ _ h2, htab]
    simp only [sqlUpdate, sqlInsert]
    rw [map_insertRow_of_fixed]
    · simp
    · intro x hx
      have := lt_nextId t x hx
      have hne : x.id ≠ nextId t := by omega
      simp [hne]
    · simp
  · unfold requestFor
    by_cases hu : updatedField = some "camara" <;> simp [hu]

/-- Witness of `update_after_pending_create`: a product created and renamed
offline on a table of two rows. -/
theorem update_after_pending_create_witness :
    nextId tablaPendiente < 2 ^ 63 ∧
    (createProducto "pan" "3" false sinRed tablaPendiente).1.id =
      some (nextId tablaPendiente) ∧
    (createProducto "pan" "3" false sinRed tablaPendiente).2.1.rows =
      insertRow ⟨nextId tablaPendiente, some "pan", some "3", 0, some "INSERT", none⟩
        tablaPendiente.rows ∧
    (updateProducto (nextId tablaPendiente) (some "pan") (some "4") none true sinRed
        (createProducto "pan" "3" false sinRed tablaPendiente).2.1).2.1.rows =
      insertRow ⟨nextId tablaPendiente, some "pan", some "4", 0, some "UPDATE", none⟩
        tablaPendiente.rows ∧
    requestFor ⟨nextId tablaPendiente, some "pan", some "4", 0, some "UPDATE", none⟩ =
      some (if (none : Option String) = some "camara" then
              .patch (nextId tablaPendiente) (some "4")
            else .put (nextId tablaPendiente) (some "pan") (some "4")) :=
  ⟨by decide,
   update_after_pending_create tablaPendiente "pan" "3" (some "pan") (some "4") none false true
    sinRed sinRed (by decide) (Or.inl rfl) (Or.inr (fun _ _ h => by cases h))⟩

/-- C5 (fails on the code): on an empty table, `createProducto("pan", "3")`
and then `updateProducto(1, "pan", "4")`, both offline, leave the row with
`operation = "UPDATE"` instead of `"INSERT"`, and `syncWithServer` sends for
it a PUT to `/productos/1`, the local id, and no POST. -/
theorem update_after_pending_create_is_update :
    (createProducto "pan" "3" false sinRed ⟨[], 0⟩).2.1.rows =
      [⟨1, some "pan", some "3", 0, some "INSERT", none⟩] ∧
    (updateProducto 1 (some "pan") (some "4") none false sinRed
        (createProducto "pan" "3" false sinRed ⟨[], 0⟩).2.1).2.1.rows =
      [⟨1, some "pan", some "4", 0, some "UPDATE", none⟩] ∧
    (syncWithServer true sinRed
        (updateProducto 1 (some "pan") (some "4") none false sinRed
          (createProducto "pan" "3" false sinRed ⟨[], 0⟩).2.1).2.1).calls =
      [.put 1 (some "pan") (some "4")] := by
  decide

end DbService

namespace DbService

theorem drain_append (remote : Remote) (l1 l2 : List Row) (t : Table) (log : List Request) :
    drain remote (l1 ++ l2) t log =
      if (drain remote l1 t log).completed then
        drain remote l2 (drain remote l1 t log).table (drain remote l1 t log).calls
      else drain remote l1 t log := by
  induction l1 generalizing t log with
  | nil => simp [drain]
  | cons item rest ih =>
      simp only [List.cons_append, drain]
      cases requestFor item with
      | none => exact ih t log
      | some req =>
          simp only
          cases remote log.length req with
          | rejects => simp
          | resp ok body =>
              cases ok with
              | false => simp
              | true => exact ih _ _

theorem mem_acknowledge (item r : Row) (t : Table) (hr : r ∈ t.rows) (hne : item.id ≠ r.id) :
    r ∈ (acknowledge item t).rows := by
  unfold acknowledge
  split
  · simp only [sqlDeleteById, List.mem_filter]
    exact ⟨hr, by simpa using fun h => hne h.symm⟩
  · simp only [sqlMarkSynced, List.mem_map]
    exact ⟨r, hr, by simp [Ne.symm hne]⟩

theorem mem_drain (remote : Remote) (items : List Row) (t : Table) (log : List Request)
    (r : Row) (hr : r ∈ t.rows) (hne : ∀ p ∈ items, p.id ≠ r.id) :
    r ∈ (drain remote items t log).table.rows := by
  induction items generalizing t log with
  | nil => simpa [drain] using hr
  | cons item rest ih =>
      have hrest : ∀ p ∈ rest, p.id ≠ r.id := fun p hp => hne p (List.mem_cons_of_mem _ hp)
      simp only [drain]
      cases requestFor item with
      | none => exact ih t log hr hrest
      | some req =>
          simp only
          cases remote log.length req with
          | rejects => exact hr
          | resp ok body =>
              cases ok with
              | false => exact hr
              | true =>
                  exact ih _ _ (mem_acknowledge item r t hr (hne item (List.mem_cons_self _ _)))
                    hrest

/-- C8 (as amended): in `syncWithServer`, a failed remote call for one
pending row stops the drain: the run ends with `success = false`, the failed
request is the last one sent (no request is sent for a later pending row and
the list of the server is not fetched), the table is the one left by the rows
before the failed one, and the failed row and every later pending row whose id
is not the id of an earlier pending row is still in the table as it was. -/
theorem syncWithServer_stops_at_failure (remote : Remote) (t : Table)
    (pre post : List Row) (item : Row) (req : Request)
    (hp : t.rows.filter (fun r => r.synced = 0) = pre ++ item :: post)
    (hreq : requestFor item = some req)
    (hpre : (drain remote pre t []).completed = true)
    (hfail : ∀ body, remote (drain remote pre t []).calls.length req ≠ .resp true body) :
    syncWithServer true remote t =
      ⟨false, (drain remote pre t []).table, (drain remote pre t []).calls ++ [req]⟩ ∧
    ∀ r ∈ item :: post, (∀ p ∈ pre, p.id ≠ r.id) →
      r ∈ (syncWithServer true remote t).table.rows := by
  have hdrain : drain remote (pre ++ item :: post) t [] =
      ⟨false, (drain remote pre t []).table, (drain remote pre t []).calls ++ [req]⟩ := by
    rw [drain_append, if_pos hpre]
    rw [drain]
    simp only [hreq]
  have hsync : syncWithServer true remote t =
      ⟨false, (drain remote pre t []).table, (drain remote pre t []).calls ++ [req]⟩ := by
    simp [syncWithServer, hp, hdrain]
  refine ⟨hsync, ?_⟩
  intro r hr hne
  rw [hsync]
  have hmem : r ∈ t.rows := by
    have : r ∈ t.rows.filter (fun r => r.synced = 0) := by
      rw [hp]; exact List.mem_append_right _ hr
    exact (List.mem_filter.mp this).1
  exact mem_drain remote pre t [] r hmem hne

/-- Witness of `syncWithServer_stops_at_failure`: two pending rows, the
request of the first one fails. -/
theorem syncWithServer_stops_at_failure_witness :
    tablaPendiente.rows.filter (fun r => r.synced = 0) = [] ++ filaEditada :: [filaCreada] ∧
    (syncWithServer true fallaPrimero tablaPendiente =
      ⟨false, (drain fallaPrimero [] tablaPendiente []).table,
        (drain fallaPrimero [] tablaPendiente []).calls ++ [.patch 5 (some "9")]⟩ ∧
    ∀ r ∈ filaEditada :: [filaCreada], (∀ p ∈ ([] : List Row), p.id ≠ r.id) →
      r ∈ (syncWithServer true fallaPrimero tablaPendiente).table.rows) :=
  ⟨by decide,
   syncWithServer_stops_at_failure fallaPrimero tablaPendiente [] [filaCreada] filaEditada
    (.patch 5 (some "9")) (by decide) (by decide) (by decide)
    (fun _ h => by cases (show Response.resp false Body.invalid = _ from h))⟩

/-- C8 (as stated, refuted): with two pending rows and a server that rejects
the first request only, `syncWithServer` sends the PATCH of the first row and
nothing else: no POST is sent for the second row, which stays `synced = 0`,
although the server would have accepted it. -/
theorem syncWithServer_aborts_on_first_failure :
    tablaPendiente.rows.filter (fun r => r.synced = 0) = [filaEditada, filaCreada] ∧
    requestFor filaCreada = some (.post (some "sal") (some "1")) ∧
    fallaPrimero 1 (.post (some "sal") (some "1")) = .resp true (.array []) ∧
    syncWithServer true fallaPrimero tablaPendiente =
      ⟨false, tablaPendiente, [.patch 5 (some "9")]⟩ := by
  decide

end DbService

namespace DbService

theorem mem_sqlInsertOrReplace (t : Table) (product : Product) (r : Row) (hr : r ∈ t.rows)
    (hne : product.id ≠ some r.id) : r ∈ (sqlInsertOrReplace t product).rows := by
  unfold sqlInsertOrReplace
  cases hid : product.id with
  | none =>
      simp only [sqlInsert]
      exact (mem_insertRow _ _ _).mpr (Or.inr hr)
  | some k =>
      have hk : r.id ≠ k := by
        intro h
        exact hne (by rw [hid, h])
      simp only
      exact (mem_insertRow _ _ _).mpr (Or.inr (List.mem_filter.mpr ⟨hr, by simpa using hk⟩))

theorem mem_foldl_sqlInsertOrReplace (server : List Product) (t : Table) (r : Row)
    (hr : r ∈ t.rows) (hne : ∀ p ∈ server, p.id ≠ some r.id) :
    r ∈ (server.foldl sqlInsertOrReplace t).rows := by
  induction server generalizing t with
  | nil => exact hr
  | cons p ps ih =>
      exact ih (sqlInsertOrReplace t p)
        (mem_sqlInsertOrReplace t p r hr (hne p (List.mem_cons_self _ _)))
        (fun q hq => hne q (List.mem_cons_of_mem _ hq))

/-- The snapshot merge of `dbService` (run by `getProductos` when online and
by `syncWithServer` after the drain) keeps the pending rows whose id is not in
the list of the server: every row with `synced = 0` whose id is the id of no
product of the list is present after the merge with the same id, nombre,
camara, `synced = 0`, operation and updatedField. -/
theorem mergeSnapshot_keeps_pending_rows_of_other_ids (t : Table) (server : List Product)
    (r : Row) (hr : r ∈ t.rows) (hs : r.synced = 0)
    (hne : ∀ p ∈ server, p.id ≠ some r.id) :
    r ∈ (mergeSnapshot t server).rows ∧
    (getProductos true (fun _ _ => .resp true (.array server)) t).2.1 =
      mergeSnapshot t server := by
  refine ⟨?_, rfl⟩
  unfold mergeSnapshot
  apply mem_foldl_sqlInsertOrReplace server _ r _ hne
  simp only [sqlDeleteSynced, List.mem_filter]
  exact ⟨hr, by simp [hs]⟩

/-- Witness of `mergeSnapshot_keeps_pending_rows_of_other_ids`: the row
created offline with id 6 survives the merge of a list that has product 5
only. -/
theorem mergeSnapshot_keeps_pending_rows_of_other_ids_witness :
    (filaCreada ∈ tablaPendiente.rows ∧ filaCreada.synced = 0 ∧
      ∀ p ∈ listaServidor, p.id ≠ some filaCreada.id) ∧
    filaCreada ∈ (mergeSnapshot tablaPendiente listaServidor).rows ∧
    (getProductos true (fun _ _ => .resp true (.array listaServidor)) tablaPendiente).2.1 =
      mergeSnapshot tablaPendiente listaServidor :=
  ⟨by decide,
   mergeSnapshot_keeps_pending_rows_of_other_ids tablaPendiente listaServidor filaCreada
    (by decide) (by decide) (by decide)⟩

/-- C10 (fails on the code): the merge deletes the synced rows only, but the
`INSERT OR REPLACE` that follows replaces a pending row whose id is in the
list of the server: the row with the pending camera update of product 5
(`synced = 0`, camara "9") is replaced by the product 5 of the server
(camara "2", `synced = 1`, no operation). -/
theorem mergeSnapshot_replaces_pending_row_of_same_id :
    filaEditada ∈ tablaPendiente.rows ∧ filaEditada.synced = 0 ∧
    (mergeSnapshot tablaPendiente listaServidor).rows =
      [⟨5, some "pan", some "2", 1, none, none⟩, filaCreada] ∧
    filaEditada ∉ (mergeSnapshot tablaPendiente listaServidor).rows ∧
    (getProductos true (fun _ _ => .resp true (.array listaServidor)) tablaPendiente).2.1 =
      mergeSnapshot tablaPendiente listaServidor := by
  decide

end DbService

/-! ## dbService.js: camera update -/

namespace DbService

/-- C12 (fails on the code): `updateCamara(5, "9")` runs `updateProducto(5,
null, "9", "camara")`, whose `UPDATE` statement also writes the `nombre`
column: the row of product 5 ends with camara "9" and nombre `NULL` instead
of "pan", offline as well as when the server accepts the PATCH; the other
row is unchanged. -/
theorem updateCamara_erases_nombre :
    tablaSincronizada.rows =
      [⟨5, some "pan", some "3", 1, none, none⟩, ⟨6, some "sal", some "1", 1, none, none⟩] ∧
    (updateCamara 5 (some "9") false sinRed tablaSincronizada).2.1.rows =
      [⟨5, none, some "9", 0, some "UPDATE", some "camara"⟩,
       ⟨6, some "sal", some "1", 1, none, none⟩] ∧
    (updateCamara 5 (some "9") true servidorAcepta tablaSincronizada).2.1.rows =
      [⟨5, none, some "9", 1, some "UPDATE", some "camara"⟩,
       ⟨6, some "sal", some "1", 1, none, none⟩] ∧
    (updateCamara 5 (some "9") true servidorAcepta tablaSincronizada).2.2 =
      [.patch 5 (some "9")] := by
  decide

end DbService

end PruebaCyl
